import Mathlib

/-
Verification development for the MineStay bot-orchestration engine.

The TypeScript sources are shallowly embedded as pure Lean functions:
  * `MemStorage` (the keyed bot-record store) becomes association-list
    operations over `List (String × Bot)`.
  * `MinecraftBotService` becomes pure state transformers over
    `ServiceState`, which records the session registry, the persisted
    store, the emitted events, the live `setInterval` timers, the
    scheduled `setTimeout` tasks, the cancelled timer ids, the closed
    protocol connections and an execution log of kind-specific behavior
    runs (the protocol-client calls such as dig/attack/toss are external
    collaborators; each run of a kind-specific behavior is recorded as
    one entry of `execLog`).
  * JS numbers that the code inspects only through `typeof` and
    finiteness are embedded as `JsVal`; positions are rational triples,
    and `distanceTo p q >= d` (a real square root comparison) is embedded
    as the equivalent rational condition `d ≤ 0 ∨ d*d ≤ distSq p q`.
  * Timings (`setTimeout`/`setInterval` delays) are kept as rational
    millisecond values carried by the timer records.
-/

namespace MineStay

/-- Status of a persisted bot record: offline | connecting | online | error. -/
inductive BotStatus
  | offline
  | connecting
  | online
  | error
deriving DecidableEq, Repr

/-- A 3D position (the engine stores x, y, z as numbers). -/
structure Position where
  x : Rat
  y : Rat
  z : Rat
deriving DecidableEq, Repr

/-- One inventory snapshot entry: slot number, item name, count, display name. -/
structure InventoryItem where
  slot : Nat
  name : String
  count : Nat
  displayName : Option String
deriving DecidableEq, Repr

/-- The persisted bot record (shared/schema.ts `bots` table row). -/
structure Bot where
  id : String
  name : String
  status : BotStatus
  position : Option Position
  health : Option Int
  food : Option Int
  inventory : List InventoryItem
  uptime : Option Int
  createdAt : Option Int
  lastConnected : Option Int
deriving DecidableEq, Repr

/-- `Partial<Bot>`: a field is `some v` when the update supplies it and
`none` when it is absent from the update object. -/
structure BotUpdate where
  id : Option String := none
  name : Option String := none
  status : Option BotStatus := none
  position : Option (Option Position) := none
  health : Option (Option Int) := none
  food : Option (Option Int) := none
  inventory : Option (List InventoryItem) := none
  uptime : Option (Option Int) := none
  createdAt : Option (Option Int) := none
  lastConnected : Option (Option Int) := none
deriving DecidableEq, Repr

/-- JS object spread `{ ...bot, ...updates }`: every field supplied by the
update replaces the old one, every absent field keeps its prior value. -/
def mergeBot (b : Bot) (u : BotUpdate) : Bot :=
  { id := u.id.getD b.id
    name := u.name.getD b.name
    status := u.status.getD b.status
    position := u.position.getD b.position
    health := u.health.getD b.health
    food := u.food.getD b.food
    inventory := u.inventory.getD b.inventory
    uptime := u.uptime.getD b.uptime
    createdAt := u.createdAt.getD b.createdAt
    lastConnected := u.lastConnected.getD b.lastConnected }

/-- `Map.get` on a string-keyed map, embedded as first-match lookup. -/
def alookup {α : Type} : List (String × α) → String → Option α
  | [], _ => none
  | (k, v) :: r, i => if k = i then some v else alookup r i

/-- `Map.set`: replace the entry for the key if present, else append. -/
def aset {α : Type} : List (String × α) → String → α → List (String × α)
  | [], i, b => [(i, b)]
  | (k, v) :: r, i, b => if k = i then (i, b) :: r else (k, v) :: aset r i b

/-- `Map.delete`: remove the entry for the key. -/
def aerase {α : Type} : List (String × α) → String → List (String × α)
  | [], _ => []
  | (k, v) :: r, i => if k = i then r else (k, v) :: aerase r i

/-- Update the value stored under a key in place, if present. -/
def amodify {α : Type} : List (String × α) → String → (α → α) → List (String × α)
  | [], _, _ => []
  | (k, v) :: r, i, f => if k = i then (k, f v) :: r else (k, v) :: amodify r i f

/-- The keys of the map are pairwise distinct (a JS `Map` cannot hold two
entries for one key). -/
def keysNodup {α : Type} (l : List (String × α)) : Prop :=
  (l.map Prod.fst).Nodup

instance {α : Type} (l : List (String × α)) : Decidable (keysNodup l) := by
  unfold keysNodup
  infer_instance

/-- `MemStorage.updateBot(id, updates)`: returns `undefined` and leaves the
map untouched when the id is absent; otherwise stores and returns the
spread-merged record. -/
def updateBot (store : List (String × Bot)) (i : String) (u : BotUpdate) :
    Option Bot × List (String × Bot) :=
  match alookup store i with
  | none => (none, store)
  | some b =>
    let ub := mergeBot b u
    (some ub, aset store i ub)

/-- A JS number-or-other value, classified exactly as finely as the code
and the spec inspect it: a finite numeric value, positive or negative
Infinity, NaN, or a non-number value (`typeof x !== 'number'`). -/
inductive JsVal
  | fin (q : Rat)
  | inf
  | negInf
  | nan
  | notNum
deriving DecidableEq, Repr

/-- `typeof x === 'number'` (true for NaN and the infinities). -/
def typeofNumber : JsVal → Bool
  | JsVal.notNum => false
  | _ => true

/-- Modelled from the spec: a coordinate is a "finite number"
(`Number.isFinite`): a numeric value that is neither NaN nor infinite. -/
def isFiniteVal : JsVal → Bool
  | JsVal.fin _ => true
  | _ => false

/-- A `lookAt` coordinates object with its three JS fields. -/
structure JsCoords where
  x : JsVal
  y : JsVal
  z : JsVal
deriving DecidableEq, Repr

/-- The movement control flags of the protocol client
(`bot.setControlState` keys used by the service). -/
inductive CtrlKey
  | forward
  | back
  | left
  | right
  | jump
  | sneak
  | sprint
deriving DecidableEq, Repr

/-- The control-flag state held by the protocol client. -/
structure ControlState where
  forward : Bool
  back : Bool
  left : Bool
  right : Bool
  jump : Bool
  sneak : Bool
  sprint : Bool
deriving DecidableEq, Repr

/-- All control flags start out released. -/
def ControlState.init : ControlState :=
  { forward := false, back := false, left := false, right := false,
    jump := false, sneak := false, sprint := false }

/-- Set one control flag. -/
def setCtrl (c : ControlState) (k : CtrlKey) (v : Bool) : ControlState :=
  match k with
  | CtrlKey.forward => { c with forward := v }
  | CtrlKey.back => { c with back := v }
  | CtrlKey.left => { c with left := v }
  | CtrlKey.right => { c with right := v }
  | CtrlKey.jump => { c with jump := v }
  | CtrlKey.sneak => { c with sneak := v }
  | CtrlKey.sprint => { c with sprint := v }

/-- Read one control flag. -/
def ctrlVal (c : ControlState) : CtrlKey → Bool
  | CtrlKey.forward => c.forward
  | CtrlKey.back => c.back
  | CtrlKey.left => c.left
  | CtrlKey.right => c.right
  | CtrlKey.jump => c.jump
  | CtrlKey.sneak => c.sneak
  | CtrlKey.sprint => c.sprint

/-- A one-shot command issued to the protocol client. -/
inductive ProtoCmd
  | lookAtPt (x y z : JsVal)
  | lookRel (dir : Nat) (degrees : Rat)
  | moveSlotItem (src dst : Nat)
deriving DecidableEq, Repr

/-- An item held by the bot (only its type and count are inspected). -/
structure Item where
  typ : Nat
  count : Nat
deriving DecidableEq, Repr

/-- The per-connection protocol-client state the service reads and writes. -/
structure ProtoState where
  controls : ControlState
  entityPos : Option Position
  heldItem : Option Item
  quickBarSlot : Nat
  commands : List ProtoCmd
deriving DecidableEq, Repr

/-- A freshly created protocol client: no entity yet, all flags clear. -/
def ProtoState.init : ProtoState :=
  { controls := ControlState.init, entityPos := none, heldItem := none,
    quickBarSlot := 0, commands := [] }

/-- The runtime `BotInstance` object: connection handle, the bot record it
was started from, the start timestamp, the `actionIntervals` map from
action kind to timer id, and the `continuousActions` set. -/
structure BotInstance where
  handle : Nat
  data : Bot
  startTime : Int
  actionIntervals : List (String × Nat)
  continuousActions : List String
  proto : ProtoState
deriving DecidableEq, Repr

/-- An event emitted by the service (fanned out to subscribers). -/
inductive Event
  | statusChange (botId : String) (status : BotStatus)
  | inventoryUpdate (botId : String)
  | errorEvt (botId : String) (msg : String)
deriving DecidableEq, Repr

/-- A live `setInterval` registration: its handle, the bot and action kind
whose behavior it repeats, and its period in milliseconds. -/
structure Timer where
  id : Nat
  botId : String
  kind : String
  periodMs : Rat
deriving DecidableEq, Repr

/-- A scheduled `setTimeout` task. -/
structure TimeoutTask where
  id : Nat
  botId : String
  kind : String
  delayMs : Rat
deriving DecidableEq, Repr

/-- The whole observable state of the `MinecraftBotService` and its
runtime: session registry, persisted store, emitted events, live interval
timers, scheduled timeouts, cancelled timer ids, closed connections, and
the log of kind-specific behavior executions. -/
structure ServiceState where
  bots : List (String × BotInstance)
  store : List (String × Bot)
  events : List Event
  timers : List Timer
  timeouts : List TimeoutTask
  cancelled : List Nat
  closedConns : List Nat
  execLog : List (String × String)
  nextTimer : Nat
  nextConn : Nat
  now : Int
deriving DecidableEq, Repr

/-- Apply a function to the registered instance of one bot, if present. -/
def modifyInst (s : ServiceState) (botId : String) (f : BotInstance → BotInstance) :
    ServiceState :=
  { s with bots := amodify s.bots botId f }

/-- `bot.setControlState(key, value)` on the given bot's protocol client. -/
def setControl (s : ServiceState) (botId : String) (k : CtrlKey) (v : Bool) :
    ServiceState :=
  modifyInst s botId fun i =>
    { i with proto := { i.proto with controls := setCtrl i.proto.controls k v } }

/-- Issue a one-shot protocol command on the given bot's client. -/
def pushCmd (s : ServiceState) (botId : String) (c : ProtoCmd) : ServiceState :=
  modifyInst s botId fun i =>
    { i with proto := { i.proto with commands := i.proto.commands ++ [c] } }

/-- Record one run of the kind-specific behavior of an action kind. -/
def logExec (s : ServiceState) (botId kind : String) : ServiceState :=
  { s with execLog := s.execLog ++ [(botId, kind)] }

/-- `setTimeout(task, delayMs)`: register a scheduled task. -/
def scheduleTimeout (s : ServiceState) (botId kind : String) (delayMs : Rat) :
    ServiceState :=
  { s with
    timeouts := s.timeouts ++ [{ id := s.nextTimer, botId := botId, kind := kind,
                                 delayMs := delayMs }]
    nextTimer := s.nextTimer + 1 }

/-- `setInterval(...)` plus `botInstance.actionIntervals.set(kind, timer)`:
create a fresh interval timer and register it under the action kind. -/
def installTimer (s : ServiceState) (botId kind : String) (periodMs : Rat) :
    ServiceState :=
  let tid := s.nextTimer
  let s1 := { s with
    timers := s.timers ++ [{ id := tid, botId := botId, kind := kind,
                             periodMs := periodMs }]
    nextTimer := tid + 1 }
  modifyInst s1 botId fun i =>
    { i with actionIntervals := aset i.actionIntervals kind tid }

/-- The timer id registered for an action kind on a bot, if any
(`botInstance.actionIntervals.get(actionType)`). -/
def registeredId (s : ServiceState) (botId kind : String) : Option Nat :=
  (alookup s.bots botId).bind fun inst => alookup inst.actionIntervals kind

/-- The prologue of `handleAction`: clear any existing interval of this
action type (`clearInterval` + `actionIntervals.delete`) and drop the kind
from `continuousActions`. -/
def clearExistingAction (s : ServiceState) (botId kind : String) : ServiceState :=
  let s1 :=
    match registeredId s botId kind with
    | some tid =>
      { s with timers := s.timers.filter fun t => t.id != tid
               cancelled := s.cancelled ++ [tid] }
    | none => s
  modifyInst s1 botId fun i =>
    { i with actionIntervals := aerase i.actionIntervals kind
             continuousActions := i.continuousActions.filter fun a => a != kind }

/-- The `executeAction` closure inside `handleAction`: one run of the
kind-specific behavior. The mine / attack / rightClick / dropItem /
dropStack bodies delegate to the external protocol client (swing, dig,
attack, toss, ...) and are recorded as one `execLog` entry; the sprint,
sneak and jump cases additionally touch the control flags exactly as the
source does. -/
def innerExec (s : ServiceState) (botId kind : String) : ServiceState :=
  let s1 := logExec s botId kind
  if kind = "sprint" then setControl s1 botId CtrlKey.sprint true
  else if kind = "sneak" then setControl s1 botId CtrlKey.sneak true
  else if kind = "jump" then
    scheduleTimeout (setControl s1 botId CtrlKey.jump true) botId "jumpRelease" 100
  else s1

/-- The body of the continuous-jump interval: press jump, schedule its
release after 100 ms. -/
def jumpPulse (s : ServiceState) (botId : String) : ServiceState :=
  scheduleTimeout (setControl s botId CtrlKey.jump true) botId "jumpRelease" 100

/-- A schedule mode: once | interval | continuous | stop. -/
inductive Mode
  | once
  | interval
  | continuous
  | stop
deriving DecidableEq, Repr

/-- The mode dispatch of `handleAction`, after the existing schedule for
the kind has been cleared: stop clears held sprint/sneak flags; once runs
the behavior immediately; continuous marks the kind, holds sprint/sneak,
or installs the 500 ms jump pulse timer or the immediate-run-plus-50 ms
repeat; interval installs a `(ticks/20)*1000` ms repeat when the tick
count is positive. -/
def applyScheduleMode (s : ServiceState) (botId kind : String) (mode : Mode)
    (interval : Option Rat) : ServiceState :=
  match mode with
  | Mode.stop =>
    if kind = "sprint" then setControl s botId CtrlKey.sprint false
    else if kind = "sneak" then setControl s botId CtrlKey.sneak false
    else s
  | Mode.once => innerExec s botId kind
  | Mode.continuous =>
    let s1 := modifyInst s botId fun i =>
      { i with continuousActions := i.continuousActions ++ [kind] }
    if kind = "sprint" then setControl s1 botId CtrlKey.sprint true
    else if kind = "sneak" then setControl s1 botId CtrlKey.sneak true
    else if kind = "jump" then installTimer s1 botId kind 500
    else installTimer (innerExec s1 botId kind) botId kind 50
  | Mode.interval =>
    match interval with
    | some t => if 0 < t then installTimer s botId kind (t / 20 * 1000) else s
    | none => s

/-- `handleAction(botInstance, actionType, mode, interval)`: always clear
the existing schedule for the action type first, then apply the mode. -/
def handleActionS (s : ServiceState) (botId kind : String) (mode : Mode)
    (interval : Option Rat) : ServiceState :=
  applyScheduleMode (clearExistingAction s botId kind) botId kind mode interval

/-- One firing of a live interval timer: a no-op if the id is not live,
the jump pulse for the continuous-jump timer, and one run of the
kind-specific behavior for every other timer. -/
def fireTimer (s : ServiceState) (tid : Nat) : ServiceState :=
  match s.timers.find? (fun t => t.id == tid) with
  | none => s
  | some t => if t.kind = "jump" then jumpPulse s t.botId else innerExec s t.botId t.kind

/-- Fire a sequence of timer ids in order. -/
def fireMany (s : ServiceState) (l : List Nat) : ServiceState :=
  l.foldl fireTimer s

/-- How many times the kind-specific behavior of (bot, kind) has run. -/
def execCount (s : ServiceState) (botId kind : String) : Nat :=
  (s.execLog.filter fun e => e.1 == botId && e.2 == kind).length

/-- A movement direction as accepted by `move` actions. -/
inductive Direction4
  | forward
  | backward
  | left
  | right
deriving DecidableEq, Repr

/-- A look rotation direction as accepted by `look` actions. -/
inductive LookDir
  | up
  | down
  | left
  | right
deriving DecidableEq, Repr

/-- The `distance` of a `move` action: `'continuous'` or a block count. -/
inductive MoveDistance
  | continuous
  | blocks (d : Rat)
deriving DecidableEq, Repr

/-- A `BotAction` request, mirroring the discriminated union of
shared/schema.ts. The `lookAt` coordinates are carried as raw JS values
so the handler's own `typeof` guard is meaningful. -/
inductive ActionReq
  | move (dir : Direction4) (dist : MoveDistance)
  | look (dir : LookDir) (degrees : Rat)
  | lookAt (coords : Option JsCoords)
  | jump
  | sneak (toggle : Bool)
  | mine (mode : Mode) (interval : Option Rat)
  | attack (mode : Mode) (interval : Option Rat)
  | rightClick (mode : Mode) (interval : Option Rat)
  | dropItem (mode : Mode) (interval : Option Rat)
  | dropStack (mode : Mode) (interval : Option Rat)
  | sprint (mode : Mode) (interval : Option Rat)
  | selectSlot (slot : Nat)
  | swapOffhand (slot : Nat)
deriving DecidableEq, Repr

/-- The control flag chosen by `handleMovement`'s direction ternary. -/
def ctrlOfDir : Direction4 → CtrlKey
  | Direction4.forward => CtrlKey.forward
  | Direction4.backward => CtrlKey.back
  | Direction4.left => CtrlKey.left
  | Direction4.right => CtrlKey.right

/-- `handleMovement`: continuous mode releases all four directional flags
then holds only the requested one; finite mode requires a current entity
position, holds the flag and schedules the first `checkDistance` poll
50 ms later (the poll loop itself is `movePollIdx` below). -/
def handleMovementS (s : ServiceState) (botId : String) (dir : Direction4)
    (dist : MoveDistance) : Except String ServiceState :=
  match dist with
  | MoveDistance.continuous =>
    let s1 := setControl s botId CtrlKey.forward false
    let s2 := setControl s1 botId CtrlKey.back false
    let s3 := setControl s2 botId CtrlKey.left false
    let s4 := setControl s3 botId CtrlKey.right false
    Except.ok (setControl s4 botId (ctrlOfDir dir) true)
  | MoveDistance.blocks _ =>
    match (alookup s.bots botId).bind (fun i => i.proto.entityPos) with
    | none => Except.error "Bot entity not available for movement"
    | some _ =>
      let s1 := setControl s botId (ctrlOfDir dir) true
      Except.ok (scheduleTimeout s1 botId "moveCheck" 50)

/-- `handleLooking`: requires entity state, then issues one orientation
command; the yaw/pitch arithmetic (degrees times pi over 180 applied to
the current orientation) is carried symbolically on the command since no
claim inspects the trigonometric value. -/
def handleLookingS (s : ServiceState) (botId : String) (dir : LookDir)
    (degrees : Rat) : Except String ServiceState :=
  match (alookup s.bots botId).bind (fun i => i.proto.entityPos) with
  | none => Except.error "Bot entity not available for looking"
  | some _ =>
    let dirIdx : Nat :=
      match dir with
      | LookDir.left => 0
      | LookDir.right => 1
      | LookDir.up => 2
      | LookDir.down => 3
    Except.ok (pushCmd s botId (ProtoCmd.lookRel dirIdx degrees))

/-- `handleLookAt`: rejects when the coordinates object is missing or any
of x, y, z fails `typeof === 'number'`; otherwise issues the single
`bot.lookAt(new Vec3(x, y, z))` face-point command. -/
def handleLookAtS (s : ServiceState) (botId : String) (coords : Option JsCoords) :
    Except String ServiceState :=
  match coords with
  | none => Except.error "Invalid coordinates provided for lookAt"
  | some c =>
    if typeofNumber c.x && typeofNumber c.y && typeofNumber c.z then
      Except.ok (pushCmd s botId (ProtoCmd.lookAtPt c.x c.y c.z))
    else Except.error "Invalid coordinates provided for lookAt"

/-- `executeAction(botId, action)`: fails with the NotRunning error when no
session is registered for the id, and otherwise dispatches on the action
kind exactly as the source switch does. -/
def executeActionService (s : ServiceState) (botId : String) (a : ActionReq) :
    Except String ServiceState :=
  match alookup s.bots botId with
  | none => Except.error "Bot not found or not running"
  | some _ =>
    match a with
    | ActionReq.move dir dist => handleMovementS s botId dir dist
    | ActionReq.look dir degrees => handleLookingS s botId dir degrees
    | ActionReq.lookAt coords => handleLookAtS s botId coords
    | ActionReq.jump =>
      Except.ok (scheduleTimeout (setControl s botId CtrlKey.jump true)
        botId "jumpRelease" 100)
    | ActionReq.sneak toggle => Except.ok (setControl s botId CtrlKey.sneak toggle)
    | ActionReq.mine mode interval =>
      Except.ok (handleActionS s botId "mine" mode interval)
    | ActionReq.attack mode interval =>
      Except.ok (handleActionS s botId "attack" mode interval)
    | ActionReq.rightClick mode interval =>
      Except.ok (handleActionS s botId "rightClick" mode interval)
    | ActionReq.dropItem mode interval =>
      Except.ok (handleActionS s botId "dropItem" mode interval)
    | ActionReq.dropStack mode interval =>
      Except.ok (handleActionS s botId "dropStack" mode interval)
    | ActionReq.sprint mode interval =>
      Except.ok (handleActionS s botId "sprint" mode interval)
    | ActionReq.selectSlot slot =>
      Except.ok (modifyInst s botId fun i =>
        { i with proto := { i.proto with quickBarSlot := slot } })
    | ActionReq.swapOffhand slot =>
      match (alookup s.bots botId).bind (fun i => i.proto.heldItem) with
      | some _ => Except.ok (pushCmd s botId (ProtoCmd.moveSlotItem (36 + slot) 45))
      | none => Except.ok s

/-- `stopBot(botId)`: a silent no-op when no session is registered;
otherwise clear every interval the instance owns, clear the continuous
set, quit the protocol connection, remove the registry entry, persist
status offline and emit the status event. -/
def stopBot (s : ServiceState) (botId : String) : ServiceState :=
  match alookup s.bots botId with
  | none => s
  | some inst =>
    let ids := inst.actionIntervals.map Prod.snd
    let s1 := { s with
      timers := s.timers.filter fun t => !(ids.contains t.id)
      cancelled := s.cancelled ++ ids }
    let s2 := { s1 with closedConns := s1.closedConns ++ [inst.handle] }
    let s3 := { s2 with bots := aerase s2.bots botId }
    let p := updateBot s3.store botId { status := some BotStatus.offline }
    { s3 with store := p.2
              events := s3.events ++ [Event.statusChange botId BotStatus.offline] }

/-- The body of `startBot` after the stop-if-running prologue: persist
status connecting and emit it, then either register a fresh instance with
a new protocol connection, or (when the connection constructor fails)
persist status error, emit the error event and fail. -/
def startBotCore (s : ServiceState) (botData : Bot) (connectOk : Bool) :
    ServiceState × Bool :=
  let p := updateBot s.store botData.id { status := some BotStatus.connecting }
  let s1 := { s with store := p.2
                     events := s.events ++ [Event.statusChange botData.id BotStatus.connecting] }
  if connectOk then
    let inst : BotInstance :=
      { handle := s1.nextConn, data := botData, startTime := s1.now,
        actionIntervals := [], continuousActions := [], proto := ProtoState.init }
    ({ s1 with bots := aset s1.bots botData.id inst, nextConn := s1.nextConn + 1 }, true)
  else
    let p2 := updateBot s1.store botData.id { status := some BotStatus.error }
    ({ s1 with store := p2.2
               events := s1.events ++ [Event.errorEvt botData.id "Failed to start bot"] },
     false)

/-- `startBot(botData)`: if a session for the id is already registered,
stop it fully first, then run the start body. The returned flag is true
when the call succeeded. -/
def startBot (s : ServiceState) (botData : Bot) (connectOk : Bool) :
    ServiceState × Bool :=
  let s1 := if (alookup s.bots botData.id).isSome then stopBot s botData.id else s
  startBotCore s1 botData connectOk

/-- The fatal-error marker the error handler looks for. -/
def chatFormatNeedle : String := "unknown chat format code"

/-- Whether the first character list is an initial segment of the second. -/
def charsStartWith : List Char → List Char → Bool
  | [], _ => true
  | _ :: _, [] => false
  | a :: as, b :: bs => a == b && charsStartWith as bs

/-- Whether the needle occurs as a contiguous run inside the haystack. -/
def charsContain (hay needle : List Char) : Bool :=
  match hay with
  | [] => needle.isEmpty
  | _ :: rest => charsStartWith needle hay || charsContain rest needle

/-- JS `hay.includes(needle)`. -/
def strIncludes (hay needle : String) : Bool :=
  charsContain hay.data needle.data

/-- The `bot.on('error')` handler: persist status error and emit the error
event; when the message is in the malformed-chat-format class, also drop
the session from the registry and return without scheduling anything. -/
def onError (s : ServiceState) (botId msg : String) : ServiceState :=
  let p := updateBot s.store botId { status := some BotStatus.error }
  let s1 := { s with store := p.2, events := s.events ++ [Event.errorEvt botId msg] }
  if strIncludes msg chatFormatNeedle then { s1 with bots := aerase s1.bots botId }
  else s1

/-- The `bot.on('end')` handler: persist status offline and emit it, clear
the instance's intervals, drop the registry entry, and only when the
disconnect reason is exactly `socketClosed` (and not `disconnect.quitting`)
schedule the 5000 ms reconnect timeout. -/
def onEnd (s : ServiceState) (botId : String) (reason : String) : ServiceState :=
  let p := updateBot s.store botId { status := some BotStatus.offline }
  let s1 := { s with store := p.2
                     events := s.events ++ [Event.statusChange botId BotStatus.offline] }
  let s2 :=
    match alookup s1.bots botId with
    | some inst =>
      let ids := inst.actionIntervals.map Prod.snd
      { s1 with timers := s1.timers.filter fun t => !(ids.contains t.id)
                cancelled := s1.cancelled ++ ids
                bots := aerase s1.bots botId }
    | none => { s1 with bots := aerase s1.bots botId }
  if reason != "disconnect.quitting" && reason == "socketClosed" then
    scheduleTimeout s2 botId "reconnect" 5000
  else s2

/-- The outcome of one `restartBot` call: whether it invoked `startBot`,
and whether the call itself rejected. -/
structure RestartOutcome where
  attempted : Bool
  threw : Bool
deriving DecidableEq, Repr

/-- `restartBot(botId)`: read the persisted record; invoke `startBot` only
when the record exists and its status is not offline. The inner
try/catch swallows any `startBot` failure, so the call never rejects
regardless of `startBotFails`. -/
def restartBotM (record : Option Bot) (startBotFails : Bool) : RestartOutcome :=
  match record with
  | none => { attempted := false, threw := false }
  | some b =>
    if b.status ≠ BotStatus.offline then
      { attempted := true, threw := startBotFails && false }
    else { attempted := false, threw := false }

/-- The automatic reconnect schedule of the `'end'` handler, as the list
of delays (in ms after the disconnect) at which `startBot` is actually
invoked. `recAt5` / `recAt15` are the persisted records as read by
`restartBot` when the 5 s and the (conditional) further 10 s timeout
fire; `startFails1` / `startFails2` are the outcomes of the corresponding
`startBot` attempts. The second timeout is scheduled only from the catch
around the first `restartBot` call. -/
def onEndReconnectAttempts (reason : String) (recAt5 : Option Bot)
    (startFails1 : Bool) (recAt15 : Option Bot) (startFails2 : Bool) : List Nat :=
  if reason != "disconnect.quitting" && reason == "socketClosed" then
    let o1 := restartBotM recAt5 startFails1
    let first := if o1.attempted then [5000] else []
    if o1.threw then
      first ++ (if (restartBotM recAt15 startFails2).attempted then [15000] else [])
    else first
  else []

/-- Squared Euclidean distance between two positions. -/
def distSq (p q : Position) : Rat :=
  (p.x - q.x) * (p.x - q.x) + (p.y - q.y) * (p.y - q.y) + (p.z - q.z) * (p.z - q.z)

/-- One `checkDistance` poll decides to clear the flag: immediately when
no valid position is available, and otherwise when the displacement from
the start position has reached the requested distance. The source
comparison `startPos.distanceTo(currentPos) >= distance` is a real square
root comparison; over the rationals it is exactly `d ≤ 0 ∨ d*d ≤ distSq`. -/
def moveDone (startPos : Position) (d : Rat) (o : Option Position) : Bool :=
  match o with
  | none => true
  | some p => decide (d ≤ 0) || decide (d * d ≤ distSq startPos p)

/-- The `checkDistance` polling loop over the successive position
observations (one entry per 50 ms poll): the index of the poll at which
the control flag is cleared, or `none` when every listed poll keeps the
flag held and reschedules. -/
def movePollIdx (startPos : Position) (d : Rat) : List (Option Position) → Option Nat
  | [] => none
  | o :: rest =>
    if moveDone startPos d o then some 0
    else (movePollIdx startPos d rest).map Nat.succ

/-- True when an `Except` value is a success. -/
def exOk {ε α : Type} : Except ε α → Bool
  | Except.ok _ => true
  | Except.error _ => false

/-- Well-formedness of the scheduler state: live timer ids are below the
fresh counter and pairwise distinct, every live timer is the timer
registered for its (bot, kind) key, and every registered id is below the
fresh counter with per-instance registration keys pairwise distinct. -/
def schedInv (s : ServiceState) : Prop :=
  (∀ t ∈ s.timers, t.id < s.nextTimer) ∧
  (s.timers.map Timer.id).Nodup ∧
  (∀ t ∈ s.timers, registeredId s t.botId t.kind = some t.id) ∧
  (∀ e ∈ s.bots, ∀ kt ∈ e.2.actionIntervals, kt.2 < s.nextTimer) ∧
  (∀ e ∈ s.bots, keysNodup e.2.actionIntervals)

instance (s : ServiceState) : Decidable (schedInv s) := by
  unfold schedInv registeredId
  infer_instance

/-- A concrete persisted record used to instantiate the theorems. -/
def sampleBot : Bot :=
  { id := "A", name := "alpha", status := BotStatus.online, position := none,
    health := some 20, food := some 20, inventory := [], uptime := some 0,
    createdAt := some 0, lastConnected := none }

/-- A concrete record whose status is error. -/
def sampleErrBot : Bot :=
  { sampleBot with status := BotStatus.error }

/-- A concrete record whose status is offline. -/
def sampleOffBot : Bot :=
  { sampleBot with status := BotStatus.offline }

/-- A concrete running instance for bot "A" holding one mine timer. -/
def sampleInst : BotInstance :=
  { handle := 0, data := sampleBot, startTime := 0,
    actionIntervals := [("mine", 0)], continuousActions := [],
    proto := { ProtoState.init with entityPos := some { x := 0, y := 0, z := 0 } } }

/-- A concrete service state with bot "A" running and its mine timer live. -/
def sampleS : ServiceState :=
  { bots := [("A", sampleInst)], store := [("A", sampleBot)], events := [],
    timers := [{ id := 0, botId := "A", kind := "mine", periodMs := 1000 }],
    timeouts := [], cancelled := [], closedConns := [], execLog := [],
    nextTimer := 1, nextConn := 1, now := 0 }

theorem alookup_aset_self {α : Type} (l : List (String × α)) (i : String) (b : α) :
    alookup (aset l i b) i = some b := by
  induction l with
  | nil => simp [aset, alookup]
  | cons e r ih =>
    obtain ⟨k, v⟩ := e
    by_cases h : k = i
    · simp [aset, h, alookup]
    · simp [aset, h, alookup, ih]

theorem alookup_aset_ne {α : Type} (l : List (String × α)) (i j : String) (b : α)
    (h : j ≠ i) : alookup (aset l i b) j = alookup l j := by
  induction l with
  | nil => simp [aset, alookup, Ne.symm h]
  | cons e r ih =>
    obtain ⟨k, v⟩ := e
    by_cases hk : k = i
    · subst hk
      simp [aset, alookup, Ne.symm h]
    · by_cases hkj : k = j
      · simp [aset, hk, alookup, hkj, h]
      · simp [aset, hk, alookup, hkj, ih]

theorem alookup_aerase_ne {α : Type} (l : List (String × α)) (i j : String)
    (h : j ≠ i) : alookup (aerase l i) j = alookup l j := by
  induction l with
  | nil => simp [aerase]
  | cons e r ih =>
    obtain ⟨k, v⟩ := e
    by_cases hk : k = i
    · subst hk
      simp [aerase, alookup, Ne.symm h]
    · by_cases hkj : k = j
      · simp [aerase, hk, alookup, hkj, h]
      · simp [aerase, hk, alookup, hkj, ih]

theorem alookup_none_of_not_mem_keys {α : Type} (l : List (String × α)) (i : String)
    (h : i ∉ l.map Prod.fst) : alookup l i = none := by
  induction l with
  | nil => simp [alookup]
  | cons e r ih =>
    obtain ⟨k, v⟩ := e
    simp only [List.map_cons, List.mem_cons] at h
    push_neg at h
    simp [alookup, Ne.symm h.1, ih h.2]

theorem alookup_aerase_self {α : Type} (l : List (String × α)) (i : String)
    (h : keysNodup l) : alookup (aerase l i) i = none := by
  induction l with
  | nil => simp [aerase, alookup]
  | cons e r ih =>
    obtain ⟨k, v⟩ := e
    simp only [keysNodup, List.map_cons, List.nodup_cons] at h
    by_cases hk : k = i
    · subst hk
      simp only [aerase, if_pos rfl]
      exact alookup_none_of_not_mem_keys r k h.1
    · simp only [aerase, if_neg hk, alookup, if_neg hk]
      exact ih h.2

theorem alookup_mem {α : Type} (l : List (String × α)) (i : String) (v : α)
    (h : alookup l i = some v) : (i, v) ∈ l := by
  induction l with
  | nil => simp [alookup] at h
  | cons e r ih =>
    obtain ⟨k, w⟩ := e
    by_cases hk : k = i
    · subst hk
      simp only [alookup, if_true, eq_self_iff_true, Option.some.injEq] at h
      subst h
      exact List.mem_cons_self _ _
    · simp only [alookup, if_neg hk] at h
      exact List.mem_cons_of_mem _ (ih h)

theorem mem_aset {α : Type} (l : List (String × α)) (i : String) (b : α)
    (e : String × α) (h : e ∈ aset l i b) : e ∈ l ∨ e = (i, b) := by
  induction l with
  | nil => simpa [aset] using h
  | cons hd r ih =>
    obtain ⟨k, v⟩ := hd
    by_cases hk : k = i
    · simp only [aset, if_pos hk, List.mem_cons] at h
      rcases h with h | h
      · right; exact h
      · left; exact List.mem_cons_of_mem _ h
    · simp only [aset, if_neg hk, List.mem_cons] at h
      rcases h with h | h
      · left; simp [h]
      · rcases ih h with h2 | h2
        · left; exact List.mem_cons_of_mem _ h2
        · right; exact h2

theorem mem_aerase {α : Type} (l : List (String × α)) (i : String)
    (e : String × α) (h : e ∈ aerase l i) : e ∈ l := by
  induction l with
  | nil => simp [aerase] at h
  | cons hd r ih =>
    obtain ⟨k, v⟩ := hd
    by_cases hk : k = i
    · simp only [aerase, if_pos hk] at h
      exact List.mem_cons_of_mem _ h
    · simp only [aerase, if_neg hk, List.mem_cons] at h
      rcases h with h | h
      · simp [h]
      · exact List.mem_cons_of_mem _ (ih h)

theorem mem_keys_aset {α : Type} (l : List (String × α)) (i : String) (b : α)
    (j : String) : j ∈ (aset l i b).map Prod.fst ↔ j ∈ l.map Prod.fst ∨ j = i := by
  induction l with
  | nil => simp [aset]
  | cons hd r ih =>
    obtain ⟨k, v⟩ := hd
    by_cases hk : k = i
    · subst hk
      simp [aset]
      tauto
    · simp [aset, hk, ih]
      tauto

theorem keysNodup_aset {α : Type} (l : List (String × α)) (i : String) (b : α)
    (h : keysNodup l) : keysNodup (aset l i b) := by
  induction l with
  | nil => simp [aset, keysNodup]
  | cons hd r ih =>
    obtain ⟨k, v⟩ := hd
    simp only [keysNodup, List.map_cons, List.nodup_cons] at h
    by_cases hk : k = i
    · subst hk
      simpa [aset, keysNodup] using h
    · have := ih h.2
      simp only [aset, if_neg hk, keysNodup, List.map_cons, List.nodup_cons]
      refine ⟨?_, this⟩
      intro hmem
      rcases (mem_keys_aset r i b k).1 hmem with h1 | h1
      · exact h.1 h1
      · exact hk h1

theorem keys_aerase_sublist {α : Type} (l : List (String × α)) (i : String) :
    ((aerase l i).map Prod.fst).Sublist (l.map Prod.fst) := by
  induction l with
  | nil => simp [aerase]
  | cons hd r ih =>
    obtain ⟨k, v⟩ := hd
    by_cases hk : k = i
    · simp only [aerase, if_pos hk, List.map_cons]
      exact List.Sublist.cons _ (List.Sublist.refl _)
    · simp only [aerase, if_neg hk, List.map_cons]
      exact ih.cons₂ _

theorem keysNodup_aerase {α : Type} (l : List (String × α)) (i : String)
    (h : keysNodup l) : keysNodup (aerase l i) :=
  h.sublist (keys_aerase_sublist l i)

theorem keys_amodify {α : Type} (l : List (String × α)) (i : String) (f : α → α) :
    (amodify l i f).map Prod.fst = l.map Prod.fst := by
  induction l with
  | nil => simp [amodify]
  | cons hd r ih =>
    obtain ⟨k, v⟩ := hd
    by_cases hk : k = i
    · simp [amodify, hk]
    · simp [amodify, hk, ih]

theorem keysNodup_amodify {α : Type} (l : List (String × α)) (i : String)
    (f : α → α) (h : keysNodup l) : keysNodup (amodify l i f) := by
  unfold keysNodup
  rw [keys_amodify]
  exact h

theorem alookup_amodify_self {α : Type} (l : List (String × α)) (i : String)
    (f : α → α) : alookup (amodify l i f) i = (alookup l i).map f := by
  induction l with
  | nil => simp [amodify, alookup]
  | cons hd r ih =>
    obtain ⟨k, v⟩ := hd
    by_cases hk : k = i
    · simp [amodify, hk, alookup]
    · simp [amodify, hk, alookup, ih]

theorem alookup_amodify_ne {α : Type} (l : List (String × α)) (i j : String)
    (f : α → α) (h : j ≠ i) : alookup (amodify l i f) j = alookup l j := by
  induction l with
  | nil => simp [amodify]
  | cons hd r ih =>
    obtain ⟨k, v⟩ := hd
    by_cases hk : k = i
    · subst hk
      simp [amodify, alookup, Ne.symm h]
    · by_cases hkj : k = j
      · simp [amodify, hk, alookup, hkj, h]
      · simp [amodify, hk, alookup, hkj, ih]

theorem amodify_forall {α : Type} (l : List (String × α)) (i : String) (f : α → α)
    (P : α → Prop) (hl : ∀ e ∈ l, P e.2) (hf : ∀ v, P v → P (f v)) :
    ∀ e ∈ amodify l i f, P e.2 := by
  induction l with
  | nil => simp [amodify]
  | cons hd r ih =>
    obtain ⟨k, v⟩ := hd
    intro e he
    by_cases hk : k = i
    · simp only [amodify, if_pos hk, List.mem_cons] at he
      rcases he with he | he
      · subst he
        exact hf v (hl (k, v) (List.mem_cons_self _ _))
      · exact hl e (List.mem_cons_of_mem _ he)
    · simp only [amodify, if_neg hk, List.mem_cons] at he
      rcases he with he | he
      · subst he
        exact hl (k, v) (List.mem_cons_self _ _)
      · exact ih (fun e' he' => hl e' (List.mem_cons_of_mem _ he')) e he

theorem nodup_map_inj {α β : Type} {f : α → β} {l : List α}
    (h : (l.map f).Nodup) :
    ∀ x ∈ l, ∀ y ∈ l, f x = f y → x = y := by
  induction l with
  | nil => simp
  | cons hd r ih =>
    simp only [List.map_cons, List.nodup_cons] at h
    intro x hx y hy hf
    rcases List.mem_cons.1 hx with hx | hx <;> rcases List.mem_cons.1 hy with hy | hy
    · rw [hx, hy]
    · exfalso
      apply h.1
      rw [hx] at hf
      rw [hf]
      exact List.mem_map_of_mem f hy
    · exfalso
      apply h.1
      rw [hy] at hf
      rw [← hf]
      exact List.mem_map_of_mem f hx
    · exact ih h.2 x hx y hy hf

/-- C10: the persistence update on an absent identifier returns absent and
leaves the store unchanged; on a present identifier it returns and stores
the merged record, changing exactly the supplied fields of that record,
keeping every unsupplied field, and leaving every other identifier's
record untouched. -/
theorem claim_C10 (store : List (String × Bot)) (i : String) (u : BotUpdate) :
    (alookup store i = none → updateBot store i u = (none, store)) ∧
    (∀ b, alookup store i = some b →
      (updateBot store i u).1 = some (mergeBot b u) ∧
      alookup (updateBot store i u).2 i = some (mergeBot b u) ∧
      (∀ j, j ≠ i → alookup (updateBot store i u).2 j = alookup store j) ∧
      (u.id = none → (mergeBot b u).id = b.id) ∧
      (u.name = none → (mergeBot b u).name = b.name) ∧
      (u.status = none → (mergeBot b u).status = b.status) ∧
      (u.position = none → (mergeBot b u).position = b.position) ∧
      (u.health = none → (mergeBot b u).health = b.health) ∧
      (u.food = none → (mergeBot b u).food = b.food) ∧
      (u.inventory = none → (mergeBot b u).inventory = b.inventory) ∧
      (u.uptime = none → (mergeBot b u).uptime = b.uptime) ∧
      (u.createdAt = none → (mergeBot b u).createdAt = b.createdAt) ∧
      (u.lastConnected = none → (mergeBot b u).lastConnected = b.lastConnected) ∧
      (∀ v, u.id = some v → (mergeBot b u).id = v) ∧
      (∀ v, u.name = some v → (mergeBot b u).name = v) ∧
      (∀ v, u.status = some v → (mergeBot b u).status = v) ∧
      (∀ v, u.position = some v → (mergeBot b u).position = v) ∧
      (∀ v, u.health = some v → (mergeBot b u).health = v) ∧
      (∀ v, u.food = some v → (mergeBot b u).food = v) ∧
      (∀ v, u.inventory = some v → (mergeBot b u).inventory = v) ∧
      (∀ v, u.uptime = some v → (mergeBot b u).uptime = v) ∧
      (∀ v, u.createdAt = some v → (mergeBot b u).createdAt = v) ∧
      (∀ v, u.lastConnected = some v → (mergeBot b u).lastConnected = v)) := by
  constructor
  · intro h
    simp [updateBot, h]
  · intro b hb
    have h1 : updateBot store i u = (some (mergeBot b u), aset store i (mergeBot b u)) := by
      simp [updateBot, hb]
    rw [h1]
    refine ⟨rfl, alookup_aset_self _ _ _, fun j hj => alookup_aset_ne _ _ _ _ hj,
      ?_, ?_, ?_, ?_, ?_, ?_, ?_, ?_, ?_, ?_, ?_, ?_, ?_, ?_, ?_, ?_, ?_, ?_, ?_, ?_⟩ <;>
      (intros; simp [mergeBot, *])

theorem claim_C10_witness :
    updateBot [("A", sampleBot)] "B" {} = (none, [("A", sampleBot)]) ∧
    (updateBot [("A", sampleBot)] "A" { status := some BotStatus.error }).1 =
      some (mergeBot sampleBot { status := some BotStatus.error }) :=
  ⟨(claim_C10 [("A", sampleBot)] "B" {}).1 (by decide),
   ((claim_C10 [("A", sampleBot)] "A" { status := some BotStatus.error }).2
      sampleBot (by decide)).1⟩

/-- C5: `stopBot` on an identifier with no live session is a complete
no-op: the whole service state (registry, store, events, timers, and all
runtime bookkeeping) is returned unchanged and no error is raised. -/
theorem claim_C5 (s : ServiceState) (botId : String)
    (h : alookup s.bots botId = none) : stopBot s botId = s := by
  simp [stopBot, h]

theorem claim_C5_witness : stopBot sampleS "B" = sampleS :=
  claim_C5 sampleS "B" (by decide)

/-- C4: `executeAction` on an identifier with no live session fails with
the NotRunning error for every action; in this embedding an error result
carries no successor state, so no store field, event or control state is
mutated. -/
theorem claim_C4 (s : ServiceState) (botId : String) (a : ActionReq)
    (h : alookup s.bots botId = none) :
    executeActionService s botId a = Except.error "Bot not found or not running" := by
  simp [executeActionService, h]

theorem claim_C4_witness :
    executeActionService sampleS "B" ActionReq.jump =
      Except.error "Bot not found or not running" :=
  claim_C4 sampleS "B" ActionReq.jump (by decide)

/-- C9: on a protocol error of the malformed-chat-format class, the error
handler persists status error and publishes the error event, removes the
session from the registry, and schedules nothing: the timeout queue (the
only place reconnect attempts are ever scheduled, by the `'end'` handler)
and the live timer set are unchanged. -/
theorem claim_C9 (s : ServiceState) (botId msg : String) (rec : Bot)
    (hmsg : strIncludes msg chatFormatNeedle = true)
    (hrec : alookup s.store botId = some rec)
    (hnd : keysNodup s.bots) :
    alookup (onError s botId msg).bots botId = none ∧
    (onError s botId msg).timeouts = s.timeouts ∧
    (onError s botId msg).timers = s.timers ∧
    alookup (onError s botId msg).store botId =
      some (mergeBot rec { status := some BotStatus.error }) ∧
    (onError s botId msg).events = s.events ++ [Event.errorEvt botId msg] := by
  refine ⟨?_, ?_, ?_, ?_, ?_⟩
  · simp only [onError, updateBot, hrec, hmsg, if_true]
    exact alookup_aerase_self _ _ hnd
  · simp [onError, updateBot, hrec, hmsg]
  · simp [onError, updateBot, hrec, hmsg]
  · simp only [onError, updateBot, hrec, hmsg, if_true]
    exact alookup_aset_self _ _ _
  · simp [onError, updateBot, hrec, hmsg]

theorem claim_C9_witness :
    alookup (onError sampleS "A" chatFormatNeedle).bots "A" = none ∧
    (onError sampleS "A" chatFormatNeedle).timeouts = sampleS.timeouts ∧
    (onError sampleS "A" chatFormatNeedle).timers = sampleS.timers ∧
    alookup (onError sampleS "A" chatFormatNeedle).store "A" =
      some (mergeBot sampleBot { status := some BotStatus.error }) ∧
    (onError sampleS "A" chatFormatNeedle).events =
      sampleS.events ++ [Event.errorEvt "A" chatFormatNeedle] :=
  claim_C9 sampleS "A" chatFormatNeedle sampleBot (by decide) (by decide) (by decide)

theorem startBotCore_cancelled (s : ServiceState) (b : Bot) (ok : Bool) :
    (startBotCore s b ok).1.cancelled = s.cancelled := by
  cases ok <;> simp [startBotCore]

theorem startBotCore_timers (s : ServiceState) (b : Bot) (ok : Bool) :
    (startBotCore s b ok).1.timers = s.timers := by
  cases ok <;> simp [startBotCore]

theorem startBotCore_closedConns (s : ServiceState) (b : Bot) (ok : Bool) :
    (startBotCore s b ok).1.closedConns = s.closedConns := by
  cases ok <;> simp [startBotCore]

theorem startBotCore_bots_true (s : ServiceState) (b : Bot) :
    (startBotCore s b true).1.bots =
      aset s.bots b.id
        { handle := s.nextConn, data := b, startTime := s.now,
          actionIntervals := [], continuousActions := [], proto := ProtoState.init } := by
  simp [startBotCore]

theorem startBotCore_bots_false (s : ServiceState) (b : Bot) :
    (startBotCore s b false).1.bots = s.bots := by
  simp [startBotCore]

theorem stopBot_parts (s : ServiceState) (botId : String) (old : BotInstance)
    (hold : alookup s.bots botId = some old) :
    (stopBot s botId).cancelled = s.cancelled ++ old.actionIntervals.map Prod.snd ∧
    (stopBot s botId).timers =
      (s.timers.filter fun t => !((old.actionIntervals.map Prod.snd).contains t.id)) ∧
    (stopBot s botId).closedConns = s.closedConns ++ [old.handle] ∧
    (stopBot s botId).bots = aerase s.bots botId ∧
    (stopBot s botId).nextConn = s.nextConn ∧
    (stopBot s botId).now = s.now := by
  simp [stopBot, hold]

/-- C1: starting a bot whose identifier already has a live session first
stops the old session completely -- `startBot` factors through `stopBot`,
every timer the old instance owned is cancelled and no live interval with
one of its ids remains, its protocol connection is closed, and its
registry entry is removed -- and only then registers the single fresh
instance, so the registry still maps each identifier to at most one
session. (Per the spec's concurrency model, operations on one identifier
are serialized, which is the semantics of this embedding.) -/
theorem claim_C1 (s : ServiceState) (b : Bot) (ok : Bool) (old : BotInstance)
    (hold : alookup s.bots b.id = some old) (hnd : keysNodup s.bots) :
    startBot s b ok = startBotCore (stopBot s b.id) b ok ∧
    (∀ kt ∈ old.actionIntervals, kt.2 ∈ (startBot s b ok).1.cancelled) ∧
    (∀ kt ∈ old.actionIntervals, ∀ t ∈ (startBot s b ok).1.timers, t.id ≠ kt.2) ∧
    old.handle ∈ (startBot s b ok).1.closedConns ∧
    alookup (stopBot s b.id).bots b.id = none ∧
    keysNodup (startBot s b ok).1.bots ∧
    (ok = true → alookup (startBot s b ok).1.bots b.id =
      some { handle := s.nextConn, data := b, startTime := s.now,
             actionIntervals := [], continuousActions := [],
             proto := ProtoState.init }) := by
  have hsp := stopBot_parts s b.id old hold
  have heq : startBot s b ok = startBotCore (stopBot s b.id) b ok := by
    simp [startBot, hold]
  refine ⟨heq, ?_, ?_, ?_, ?_, ?_, ?_⟩
  · intro kt hkt
    rw [heq, startBotCore_cancelled, hsp.1]
    exact List.mem_append_right _ (List.mem_map_of_mem _ hkt)
  · intro kt hkt t ht hteq
    rw [heq, startBotCore_timers, hsp.2.1] at ht
    rcases List.mem_filter.1 ht with ⟨_, hfil⟩
    have hmem2 : t.id ∈ old.actionIntervals.map Prod.snd := by
      rw [hteq]
      exact List.mem_map_of_mem _ hkt
    simp [hmem2] at hfil
  · rw [heq, startBotCore_closedConns, hsp.2.2.1]
    exact List.mem_append_right _ (List.mem_singleton.2 rfl)
  · rw [hsp.2.2.2.1]
    exact alookup_aerase_self _ _ hnd
  · rw [heq]
    cases ok with
    | true =>
      rw [startBotCore_bots_true, hsp.2.2.2.1]
      exact keysNodup_aset _ _ _ (keysNodup_aerase _ _ hnd)
    | false =>
      rw [startBotCore_bots_false, hsp.2.2.2.1]
      exact keysNodup_aerase _ _ hnd
  · intro hok
    subst hok
    rw [heq, startBotCore_bots_true, hsp.2.2.2.2.1, hsp.2.2.2.2.2]
    exact alookup_aset_self _ _ _

theorem claim_C1_witness :
    sampleInst.handle ∈ (startBot sampleS sampleBot true).1.closedConns :=
  (claim_C1 sampleS sampleBot true sampleInst (by decide) (by decide)).2.2.2.1

/-- C3: the code's reconnect behavior evaluated at the claim's scenario.
With disconnect reason `socketClosed`, a persisted status of error, and a
first restart attempt whose `startBot` fails, exactly one attempt (at
+5000 ms) is ever made: `restartBot` swallows the failure inside its own
try/catch, so the `'end'` handler's catch -- the only place the further
10 s retry is scheduled -- never runs, contradicting the code's own
comment and the claim's second attempt. With any other unexpected reason
(here "kicked") no attempt is ever scheduled at all. -/
theorem claim_C3_code_divergence :
    onEndReconnectAttempts "socketClosed" (some sampleErrBot) true
        (some sampleErrBot) true = [5000] ∧
    onEndReconnectAttempts "kicked" (some sampleErrBot) false
        (some sampleErrBot) false = [] := by
  decide

/-- C6 counterexample: with bot "A" running, `lookAt` at x = Infinity --
a coordinate that is not a finite number -- succeeds and issues the
face-point command instead of failing with InvalidCoordinates, because
the code only checks `typeof === 'number'`. -/
theorem claim_C6_counterexample :
    exOk (executeActionService sampleS "A"
      (ActionReq.lookAt (some { x := JsVal.inf, y := JsVal.fin 0, z := JsVal.fin 0 }))) =
        true ∧
    isFiniteVal JsVal.inf = false := by
  decide

/-- C6 (amended): for every running bot, `lookAt` fails with the
InvalidCoordinates error iff the coordinates object is absent or at least
one of x, y, z is not of JS number type (so non-finite numbers such as
Infinity and NaN are accepted); whenever all three are of number type it
issues exactly one face-point command toward that coordinate. -/
theorem claim_C6_amended (s : ServiceState) (botId : String) (inst : BotInstance)
    (c : Option JsCoords) (hinst : alookup s.bots botId = some inst) :
    (∀ cc, c = some cc → typeofNumber cc.x = true → typeofNumber cc.y = true →
      typeofNumber cc.z = true →
      executeActionService s botId (ActionReq.lookAt c) =
        Except.ok (pushCmd s botId (ProtoCmd.lookAtPt cc.x cc.y cc.z)) ∧
      (alookup (pushCmd s botId (ProtoCmd.lookAtPt cc.x cc.y cc.z)).bots botId).map
          (fun i => i.proto.commands) =
        some (inst.proto.commands ++ [ProtoCmd.lookAtPt cc.x cc.y cc.z])) ∧
    ((c = none ∨ ∃ cc, c = some cc ∧ (typeofNumber cc.x = false ∨
        typeofNumber cc.y = false ∨ typeofNumber cc.z = false)) →
      executeActionService s botId (ActionReq.lookAt c) =
        Except.error "Invalid coordinates provided for lookAt") := by
  constructor
  · intro cc hc hx hy hz
    subst hc
    constructor
    · simp [executeActionService, hinst, handleLookAtS, hx, hy, hz]
    · simp [pushCmd, modifyInst, alookup_amodify_self, hinst]
  · intro h
    rcases h with h | ⟨cc, hc, hbad⟩
    · subst h
      simp [executeActionService, hinst, handleLookAtS]
    · subst hc
      rcases hbad with hb | hb | hb <;>
        simp [executeActionService, hinst, handleLookAtS, hb]

theorem claim_C6_amended_witness :
    executeActionService sampleS "A"
        (ActionReq.lookAt (some { x := JsVal.fin 1, y := JsVal.fin 2, z := JsVal.fin 3 })) =
      Except.ok (pushCmd sampleS "A"
        (ProtoCmd.lookAtPt (JsVal.fin 1) (JsVal.fin 2) (JsVal.fin 3))) :=
  ((claim_C6_amended sampleS "A" sampleInst
      (some { x := JsVal.fin 1, y := JsVal.fin 2, z := JsVal.fin 3 }) (by decide)).1
    { x := JsVal.fin 1, y := JsVal.fin 2, z := JsVal.fin 3 } rfl
    (by decide) (by decide) (by decide)).1

theorem ctrlVal_setCtrl_self (c : ControlState) (k : CtrlKey) (v : Bool) :
    ctrlVal (setCtrl c k v) k = v := by
  cases k <;> simp [setCtrl, ctrlVal]

theorem movePollIdx_first (startPos : Position) (d : Rat) :
    ∀ (obs : List (Option Position)) (i : Nat), movePollIdx startPos d obs = some i →
      i < obs.length ∧ (∀ o ∈ obs.take i, moveDone startPos d o = false) ∧
      (∀ o rest2, obs.drop i = o :: rest2 → moveDone startPos d o = true) := by
  intro obs
  induction obs with
  | nil => intro i h; simp [movePollIdx] at h
  | cons o rest ih =>
    intro i h
    by_cases hd : moveDone startPos d o = true
    · simp only [movePollIdx, hd, if_true, Option.some.injEq] at h
      subst h
      refine ⟨Nat.succ_pos _, by simp, ?_⟩
      intro o2 rest2 hdrop
      simp only [List.drop] at hdrop
      cases hdrop
      exact hd
    · simp only [Bool.not_eq_true] at hd
      simp only [movePollIdx, hd, Bool.false_eq_true, if_false] at h
      cases hm : movePollIdx startPos d rest with
      | none => rw [hm] at h; simp at h
      | some j =>
        rw [hm] at h
        simp only [Option.map_some', Option.some.injEq] at h
        subst h
        obtain ⟨h1, h2, h3⟩ := ih j hm
        refine ⟨Nat.succ_lt_succ h1, ?_, ?_⟩
        · intro o2 ho2
          simp only [List.take, List.mem_cons] at ho2
          rcases ho2 with rfl | ho2
          · exact hd
          · exact h2 o2 ho2
        · intro o2 rest2 hdrop
          exact h3 o2 rest2 (by simpa [List.drop] using hdrop)

theorem movePollIdx_isSome (startPos : Position) (d : Rat) :
    ∀ (obs : List (Option Position)), (∃ o ∈ obs, moveDone startPos d o = true) →
      (movePollIdx startPos d obs).isSome = true := by
  intro obs
  induction obs with
  | nil =>
    rintro ⟨o, ho, _⟩
    simp at ho
  | cons o rest ih =>
    rintro ⟨o2, ho2, hdone⟩
    by_cases hd : moveDone startPos d o = true
    · simp [movePollIdx, hd]
    · simp only [Bool.not_eq_true] at hd
      rcases List.mem_cons.1 ho2 with rfl | ho2
      · rw [hdone] at hd
        cases hd
      · have hs := ih ⟨o2, ho2, hdone⟩
        simp only [movePollIdx, hd, Bool.false_eq_true, if_false]
        cases hm : movePollIdx startPos d rest with
        | none => rw [hm] at hs; simp at hs
        | some j => simp

/-- C7: a `move` with a finite block count, issued while a position is
known, holds the directional flag and schedules the first 50 ms
`checkDistance` poll; the polling loop clears the flag at the first poll
whose displacement from the recorded start position reaches the distance
(for distance 0 that is the very first position check) or at the first
poll with no valid position, the flag stays held at every earlier poll,
and whenever any poll can clear (invalid position or displacement
reached), the loop terminates instead of holding the flag forever. -/
theorem claim_C7 (s : ServiceState) (botId : String) (inst : BotInstance)
    (dir : Direction4) (d : Rat) (startPos : Position)
    (hinst : alookup s.bots botId = some inst)
    (hpos : inst.proto.entityPos = some startPos) :
    executeActionService s botId (ActionReq.move dir (MoveDistance.blocks d)) =
      Except.ok (scheduleTimeout (setControl s botId (ctrlOfDir dir) true)
        botId "moveCheck" 50) ∧
    (alookup (setControl s botId (ctrlOfDir dir) true).bots botId).map
        (fun i => ctrlVal i.proto.controls (ctrlOfDir dir)) = some true ∧
    (∀ rest, movePollIdx startPos d (none :: rest) = some 0) ∧
    (∀ o rest, movePollIdx startPos 0 (o :: rest) = some 0) ∧
    (∀ obs i, movePollIdx startPos d obs = some i →
      i < obs.length ∧ (∀ o ∈ obs.take i, moveDone startPos d o = false) ∧
      (∀ o rest2, obs.drop i = o :: rest2 → moveDone startPos d o = true)) ∧
    (∀ obs, (∃ o ∈ obs, moveDone startPos d o = true) →
      (movePollIdx startPos d obs).isSome = true) := by
  refine ⟨?_, ?_, ?_, ?_, movePollIdx_first startPos d, movePollIdx_isSome startPos d⟩
  · simp [executeActionService, handleMovementS, hinst, hpos]
  · simp [setControl, modifyInst, alookup_amodify_self, hinst, ctrlVal_setCtrl_self]
  · intro rest
    simp [movePollIdx, moveDone]
  · intro o rest
    cases o <;> simp [movePollIdx, moveDone]

theorem claim_C7_witness :
    executeActionService sampleS "A"
        (ActionReq.move Direction4.forward (MoveDistance.blocks 2)) =
      Except.ok (scheduleTimeout
        (setControl sampleS "A" (ctrlOfDir Direction4.forward) true) "A" "moveCheck" 50) :=
  (claim_C7 sampleS "A" sampleInst Direction4.forward 2 { x := 0, y := 0, z := 0 }
    (by decide) (by decide)).1

theorem amodify_alookup_isSome {α : Type} (l : List (String × α)) (i j : String)
    (f : α → α) : (alookup (amodify l i f) j).isSome = (alookup l j).isSome := by
  by_cases h : j = i
  · subst h
    rw [alookup_amodify_self]
    cases alookup l j <;> simp
  · rw [alookup_amodify_ne _ _ _ _ h]

theorem registeredId_modifyInst (s : ServiceState) (b : String)
    (f : BotInstance → BotInstance)
    (hf : ∀ i, (f i).actionIntervals = i.actionIntervals) (x y : String) :
    registeredId (modifyInst s b f) x y = registeredId s x y := by
  simp only [registeredId, modifyInst]
  by_cases hxb : x = b
  · subst hxb
    rw [alookup_amodify_self]
    cases alookup s.bots x with
    | none => simp
    | some i => simp [hf i]
  · rw [alookup_amodify_ne _ _ _ _ hxb]

theorem innerExec_timers (s : ServiceState) (b k : String) :
    (innerExec s b k).timers = s.timers := by
  unfold innerExec
  split_ifs <;> rfl

theorem innerExec_cancelled (s : ServiceState) (b k : String) :
    (innerExec s b k).cancelled = s.cancelled := by
  unfold innerExec
  split_ifs <;> rfl

theorem innerExec_nextTimer_ge (s : ServiceState) (b k : String) :
    s.nextTimer ≤ (innerExec s b k).nextTimer := by
  unfold innerExec
  split_ifs
  · exact Nat.le_refl _
  · exact Nat.le_refl _
  · exact Nat.le_succ _
  · exact Nat.le_refl _

theorem innerExec_execLog (s : ServiceState) (b k : String) :
    (innerExec s b k).execLog = s.execLog ++ [(b, k)] := by
  unfold innerExec
  split_ifs <;> rfl

theorem registeredId_setControl (s : ServiceState) (b : String) (k : CtrlKey)
    (v : Bool) (x y : String) :
    registeredId (setControl s b k v) x y = registeredId s x y := by
  unfold setControl
  exact registeredId_modifyInst s b
    (fun i => { i with proto := { i.proto with controls := setCtrl i.proto.controls k v } })
    (fun i => rfl) x y

theorem setControl_alookup_isSome (s : ServiceState) (b : String) (k : CtrlKey)
    (v : Bool) (x : String) :
    (alookup (setControl s b k v).bots x).isSome = (alookup s.bots x).isSome := by
  unfold setControl modifyInst
  exact amodify_alookup_isSome s.bots b x
    (fun i => { i with proto := { i.proto with controls := setCtrl i.proto.controls k v } })

theorem registeredId_innerExec (s : ServiceState) (b k x y : String) :
    registeredId (innerExec s b k) x y = registeredId s x y := by
  unfold innerExec
  split_ifs
  · exact registeredId_setControl (logExec s b k) b CtrlKey.sprint true x y
  · exact registeredId_setControl (logExec s b k) b CtrlKey.sneak true x y
  · exact registeredId_setControl (logExec s b k) b CtrlKey.jump true x y
  · rfl

theorem innerExec_alookup_isSome (s : ServiceState) (b k x : String) :
    (alookup (innerExec s b k).bots x).isSome = (alookup s.bots x).isSome := by
  unfold innerExec
  split_ifs
  · exact setControl_alookup_isSome (logExec s b k) b CtrlKey.sprint true x
  · exact setControl_alookup_isSome (logExec s b k) b CtrlKey.sneak true x
  · exact setControl_alookup_isSome (logExec s b k) b CtrlKey.jump true x
  · rfl

theorem clear_bots (s : ServiceState) (b k : String) :
    (clearExistingAction s b k).bots =
      amodify s.bots b (fun i =>
        { i with actionIntervals := aerase i.actionIntervals k
                 continuousActions := i.continuousActions.filter fun a => a != k }) := by
  unfold clearExistingAction
  cases registeredId s b k <;> rfl

theorem clear_nextTimer (s : ServiceState) (b k : String) :
    (clearExistingAction s b k).nextTimer = s.nextTimer := by
  unfold clearExistingAction
  cases registeredId s b k <;> rfl

theorem clear_cancelled_some (s : ServiceState) (b k : String) (tid : Nat)
    (h : registeredId s b k = some tid) :
    (clearExistingAction s b k).cancelled = s.cancelled ++ [tid] := by
  unfold clearExistingAction
  rw [h]
  rfl

theorem clear_timers_some (s : ServiceState) (b k : String) (tid : Nat)
    (h : registeredId s b k = some tid) :
    (clearExistingAction s b k).timers = (s.timers.filter fun t => t.id != tid) := by
  unfold clearExistingAction
  rw [h]
  rfl

theorem clear_timers_none (s : ServiceState) (b k : String)
    (h : registeredId s b k = none) :
    (clearExistingAction s b k).timers = s.timers := by
  unfold clearExistingAction
  rw [h]
  rfl

theorem registeredId_clear_self (s : ServiceState) (b k : String)
    (h5 : ∀ e ∈ s.bots, keysNodup e.2.actionIntervals) :
    registeredId (clearExistingAction s b k) b k = none := by
  rw [registeredId, clear_bots]
  cases hb : alookup s.bots b with
  | none =>
    rw [alookup_amodify_self, hb]
    rfl
  | some i =>
    rw [alookup_amodify_self, hb]
    simp only [Option.map_some', Option.some_bind]
    exact alookup_aerase_self _ _ (h5 (b, i) (alookup_mem _ _ _ hb))

theorem clear_alookup_isSome (s : ServiceState) (b k x : String) :
    (alookup (clearExistingAction s b k).bots x).isSome = (alookup s.bots x).isSome := by
  rw [clear_bots]
  exact amodify_alookup_isSome _ _ _ _

theorem registeredId_installTimer_ne_bot (s : ServiceState) (b k : String) (p : Rat)
    (x y : String) (hx : x ≠ b) :
    registeredId (installTimer s b k p) x y = registeredId s x y := by
  simp only [registeredId, installTimer, modifyInst]
  rw [alookup_amodify_ne _ _ _ _ hx]

theorem registeredId_installTimer_self_ne_kind (s : ServiceState) (b k : String)
    (p : Rat) (y : String) (inst : BotInstance)
    (hinst : alookup s.bots b = some inst) (hy : y ≠ k) :
    registeredId (installTimer s b k p) b y = alookup inst.actionIntervals y := by
  simp only [registeredId, installTimer, modifyInst]
  rw [alookup_amodify_self, hinst]
  simp only [Option.map_some', Option.some_bind]
  exact alookup_aset_ne _ _ _ _ hy

theorem registeredId_installTimer_self_kind (s : ServiceState) (b k : String)
    (p : Rat) (inst : BotInstance) (hinst : alookup s.bots b = some inst) :
    registeredId (installTimer s b k p) b k = some s.nextTimer := by
  simp only [registeredId, installTimer, modifyInst]
  rw [alookup_amodify_self, hinst]
  simp only [Option.map_some', Option.some_bind]
  exact alookup_aset_self _ _ _

theorem registeredId_clear_ne_bot (s : ServiceState) (b k x y : String) (hx : x ≠ b) :
    registeredId (clearExistingAction s b k) x y = registeredId s x y := by
  simp only [registeredId, clear_bots]
  rw [alookup_amodify_ne _ _ _ _ hx]

theorem registeredId_clear_ne_kind (s : ServiceState) (b k y : String) (hy : y ≠ k) :
    registeredId (clearExistingAction s b k) b y = registeredId s b y := by
  simp only [registeredId, clear_bots]
  rw [alookup_amodify_self]
  cases hb : alookup s.bots b with
  | none => simp
  | some i =>
    simp only [Option.map_some', Option.some_bind]
    exact alookup_aerase_ne _ _ _ hy

theorem schedInv_modifyInst_pres (s : ServiceState) (b : String)
    (f : BotInstance → BotInstance)
    (hf : ∀ i, (f i).actionIntervals = i.actionIntervals)
    (h : schedInv s) : schedInv (modifyInst s b f) := by
  obtain ⟨h1, h2, h3, h4, h5⟩ := h
  refine ⟨h1, h2, ?_, ?_, ?_⟩
  · intro t ht
    rw [registeredId_modifyInst s b f hf]
    exact h3 t ht
  · intro e he kt hkt
    refine amodify_forall s.bots b f
      (fun inst => ∀ kt2 ∈ inst.actionIntervals, kt2.2 < s.nextTimer)
      (fun e' he' => h4 e' he') ?_ e he kt hkt
    intro v hv kt2 hkt2
    rw [hf v] at hkt2
    exact hv kt2 hkt2
  · intro e he
    refine amodify_forall s.bots b f (fun inst => keysNodup inst.actionIntervals)
      (fun e' he' => h5 e' he') ?_ e he
    intro v hv
    unfold keysNodup
    rw [hf v]
    exact hv

theorem schedInv_setControl (s : ServiceState) (b : String) (k : CtrlKey) (v : Bool)
    (h : schedInv s) : schedInv (setControl s b k v) := by
  unfold setControl
  exact schedInv_modifyInst_pres s b
    (fun i => { i with proto := { i.proto with controls := setCtrl i.proto.controls k v } })
    (fun i => rfl) h

theorem schedInv_scheduleTimeout (s : ServiceState) (b k : String) (d : Rat)
    (h : schedInv s) : schedInv (scheduleTimeout s b k d) := by
  obtain ⟨h1, h2, h3, h4, h5⟩ := h
  refine ⟨?_, h2, h3, ?_, h5⟩
  · intro t ht
    exact Nat.lt_succ_of_lt (h1 t ht)
  · intro e he kt hkt
    exact Nat.lt_succ_of_lt (h4 e he kt hkt)

theorem schedInv_innerExec (s : ServiceState) (b k : String)
    (h : schedInv s) : schedInv (innerExec s b k) := by
  unfold innerExec
  split_ifs
  · exact schedInv_setControl (logExec s b k) b CtrlKey.sprint true h
  · exact schedInv_setControl (logExec s b k) b CtrlKey.sneak true h
  · exact schedInv_scheduleTimeout _ b "jumpRelease" 100
      (schedInv_setControl (logExec s b k) b CtrlKey.jump true h)
  · exact h

theorem schedInv_installTimer (s : ServiceState) (b k : String) (p : Rat)
    (hpres : (alookup s.bots b).isSome = true)
    (hreg : registeredId s b k = none)
    (h : schedInv s) : schedInv (installTimer s b k p) := by
  obtain ⟨h1, h2, h3, h4, h5⟩ := h
  obtain ⟨inst, hinst⟩ : ∃ i, alookup s.bots b = some i := by
    cases hi : alookup s.bots b with
    | none => rw [hi] at hpres; cases hpres
    | some i => exact ⟨i, rfl⟩
  refine ⟨?_, ?_, ?_, ?_, ?_⟩
  · intro t ht
    rcases List.mem_append.1 ht with ht2 | ht2
    · exact Nat.lt_succ_of_lt (h1 t ht2)
    · rw [List.mem_singleton.1 ht2]
      exact Nat.lt_succ_self _
  · show ((s.timers ++
      [({ id := s.nextTimer, botId := b, kind := k, periodMs := p } : Timer)]).map
      Timer.id).Nodup
    rw [List.map_append]
    refine List.Nodup.append h2 (List.nodup_singleton _) ?_
    intro a ha hb2
    simp only [List.map_cons, List.map_nil, List.mem_singleton] at hb2
    rcases List.mem_map.1 ha with ⟨t, ht, hta⟩
    have hlt := h1 t ht
    rw [hta, hb2] at hlt
    exact lt_irrefl _ hlt
  · intro t ht
    rcases List.mem_append.1 ht with htm | htm
    · have hrs := h3 t htm
      by_cases hxb : t.botId = b
      · by_cases hyk : t.kind = k
        · exfalso
          rw [hxb, hyk, hreg] at hrs
          cases hrs
        · rw [hxb] at hrs ⊢
          rw [registeredId_installTimer_self_ne_kind s b k p t.kind inst hinst hyk]
          rw [registeredId] at hrs
          rw [hinst] at hrs
          simpa using hrs
      · rw [registeredId_installTimer_ne_bot s b k p _ _ hxb]
        exact hrs
    · rw [List.mem_singleton.1 htm]
      exact registeredId_installTimer_self_kind s b k p inst hinst
  · intro e he kt hkt
    refine amodify_forall s.bots b
      (fun i => { i with actionIntervals := aset i.actionIntervals k s.nextTimer })
      (fun inst2 => ∀ kt2 ∈ inst2.actionIntervals, kt2.2 < s.nextTimer + 1)
      (fun e' he' kt2 hkt2 => Nat.lt_succ_of_lt (h4 e' he' kt2 hkt2)) ?_ e he kt hkt
    intro v hv kt2 hkt2
    rcases mem_aset _ _ _ _ hkt2 with hm | hm
    · exact hv kt2 hm
    · rw [hm]
      exact Nat.lt_succ_self _
  · intro e he
    refine amodify_forall s.bots b
      (fun i => { i with actionIntervals := aset i.actionIntervals k s.nextTimer })
      (fun inst2 => keysNodup inst2.actionIntervals)
      (fun e' he' => h5 e' he') ?_ e he
    intro v hv
    exact keysNodup_aset _ _ _ hv

theorem schedInv_clear (s : ServiceState) (b k : String)
    (h : schedInv s) : schedInv (clearExistingAction s b k) := by
  obtain ⟨h1, h2, h3, h4, h5⟩ := h
  refine ⟨?_, ?_, ?_, ?_, ?_⟩
  · intro t ht
    rw [clear_nextTimer]
    cases hr : registeredId s b k with
    | none =>
      rw [clear_timers_none s b k hr] at ht
      exact h1 t ht
    | some tid =>
      rw [clear_timers_some s b k tid hr] at ht
      exact h1 t (List.mem_filter.1 ht).1
  · cases hr : registeredId s b k with
    | none =>
      rw [clear_timers_none s b k hr]
      exact h2
    | some tid =>
      rw [clear_timers_some s b k tid hr]
      exact h2.sublist (List.Sublist.map _ (List.filter_sublist _))
  · intro t ht
    have htS : t ∈ s.timers := by
      cases hr : registeredId s b k with
      | none =>
        rw [clear_timers_none s b k hr] at ht
        exact ht
      | some tid =>
        rw [clear_timers_some s b k tid hr] at ht
        exact (List.mem_filter.1 ht).1
    have hrs := h3 t htS
    by_cases hxb : t.botId = b
    · by_cases hyk : t.kind = k
      · exfalso
        rw [hxb, hyk] at hrs
        cases hr : registeredId s b k with
        | none =>
          rw [hr] at hrs
          cases hrs
        | some tid =>
          rw [hr] at hrs
          have htid : tid = t.id := by
            injection hrs
          rw [clear_timers_some s b k tid hr] at ht
          have hf := (List.mem_filter.1 ht).2
          rw [htid] at hf
          simp at hf
      · rw [hxb] at hrs ⊢
        rw [registeredId_clear_ne_kind s b k t.kind hyk]
        exact hrs
    · rw [registeredId_clear_ne_bot s b k _ _ hxb]
      exact hrs
  · intro e he kt hkt
    rw [clear_nextTimer]
    rw [clear_bots] at he
    refine amodify_forall s.bots b _
      (fun inst2 => ∀ kt2 ∈ inst2.actionIntervals, kt2.2 < s.nextTimer)
      (fun e' he' => h4 e' he') ?_ e he kt hkt
    intro v hv kt2 hkt2
    exact hv kt2 (mem_aerase _ _ _ hkt2)
  · intro e he
    rw [clear_bots] at he
    refine amodify_forall s.bots b _
      (fun inst2 => keysNodup inst2.actionIntervals)
      (fun e' he' => h5 e' he') ?_ e he
    intro v hv
    exact keysNodup_aerase _ _ hv

theorem schedInv_atMostOne (s : ServiceState) (h : schedInv s) :
    ∀ t1 ∈ s.timers, ∀ t2 ∈ s.timers, t1.botId = t2.botId → t1.kind = t2.kind →
      t1 = t2 := by
  obtain ⟨h1, h2, h3, h4, h5⟩ := h
  intro t1 ht1 t2 ht2 hb hk
  have e1 := h3 t1 ht1
  have e2 := h3 t2 ht2
  rw [hb, hk] at e1
  rw [e2] at e1
  have hid : t1.id = t2.id := by
    injection e1 with e1'
    exact e1'.symm
  exact nodup_map_inj h2 t1 ht1 t2 ht2 hid

theorem schedInv_applyMode (s : ServiceState) (b k : String) (m : Mode)
    (iv : Option Rat)
    (hpres : (alookup s.bots b).isSome = true)
    (hreg : registeredId s b k = none)
    (h : schedInv s) : schedInv (applyScheduleMode s b k m iv) := by
  cases m with
  | stop =>
    simp only [applyScheduleMode]
    split_ifs
    · exact schedInv_setControl s b CtrlKey.sprint false h
    · exact schedInv_setControl s b CtrlKey.sneak false h
    · exact h
  | once => exact schedInv_innerExec s b k h
  | continuous =>
    simp only [applyScheduleMode]
    have hS1 : schedInv (modifyInst s b fun i2 =>
        { i2 with continuousActions := i2.continuousActions ++ [k] }) :=
      schedInv_modifyInst_pres s b
        (fun i2 => { i2 with continuousActions := i2.continuousActions ++ [k] })
        (fun i2 => rfl) h
    have hpres1 : (alookup (modifyInst s b fun i2 =>
        { i2 with continuousActions := i2.continuousActions ++ [k] }).bots b).isSome =
          true := by
      unfold modifyInst
      rw [amodify_alookup_isSome]
      exact hpres
    have hreg1 : registeredId (modifyInst s b fun i2 =>
        { i2 with continuousActions := i2.continuousActions ++ [k] }) b k = none := by
      rw [registeredId_modifyInst s b
        (fun i2 => { i2 with continuousActions := i2.continuousActions ++ [k] })
        (fun i2 => rfl)]
      exact hreg
    split_ifs
    · exact schedInv_setControl _ b CtrlKey.sprint true hS1
    · exact schedInv_setControl _ b CtrlKey.sneak true hS1
    · exact schedInv_installTimer _ b k 500 hpres1 hreg1 hS1
    · refine schedInv_installTimer _ b k 50 ?_ ?_ (schedInv_innerExec _ b k hS1)
      · rw [innerExec_alookup_isSome]
        exact hpres1
      · rw [registeredId_innerExec]
        exact hreg1
  | interval =>
    cases iv with
    | none =>
      simp only [applyScheduleMode]
      exact h
    | some t =>
      simp only [applyScheduleMode]
      split_ifs with ht
      · exact schedInv_installTimer s b k (t / 20 * 1000) hpres hreg h
      · exact h

theorem applyMode_cancelled (s : ServiceState) (b k : String) (m : Mode)
    (iv : Option Rat) :
    (applyScheduleMode s b k m iv).cancelled = s.cancelled := by
  cases m with
  | stop =>
    simp only [applyScheduleMode]
    split_ifs <;> rfl
  | once =>
    simp only [applyScheduleMode]
    exact innerExec_cancelled s b k
  | continuous =>
    simp only [applyScheduleMode]
    split_ifs
    · rfl
    · rfl
    · rfl
    · exact innerExec_cancelled _ b k
  | interval =>
    cases iv with
    | none => rfl
    | some t =>
      simp only [applyScheduleMode]
      split_ifs <;> rfl

theorem applyMode_stop_timers (s : ServiceState) (b k : String) :
    (applyScheduleMode s b k Mode.stop none).timers = s.timers := by
  simp only [applyScheduleMode]
  split_ifs <;> rfl

theorem applyMode_timers (s : ServiceState) (b k : String) (m : Mode)
    (iv : Option Rat) :
    ∀ t ∈ (applyScheduleMode s b k m iv).timers, t ∈ s.timers ∨ s.nextTimer ≤ t.id := by
  cases m with
  | stop =>
    simp only [applyScheduleMode]
    split_ifs <;> (intro t ht; exact Or.inl ht)
  | once =>
    simp only [applyScheduleMode]
    intro t ht
    rw [innerExec_timers] at ht
    exact Or.inl ht
  | continuous =>
    simp only [applyScheduleMode]
    split_ifs
    · intro t ht; exact Or.inl ht
    · intro t ht; exact Or.inl ht
    · intro t ht
      rcases List.mem_append.1 ht with h2 | h2
      · exact Or.inl h2
      · right
        rw [List.mem_singleton.1 h2]
        exact Nat.le_refl _
    · intro t ht
      rcases List.mem_append.1 ht with h2 | h2
      · rw [innerExec_timers] at h2
        exact Or.inl h2
      · right
        rw [List.mem_singleton.1 h2]
        exact innerExec_nextTimer_ge
          (modifyInst s b fun i => { i with continuousActions := i.continuousActions ++ [k] })
          b k
  | interval =>
    cases iv with
    | none => intro t ht; exact Or.inl ht
    | some tk =>
      simp only [applyScheduleMode]
      split_ifs with h0
      · intro t ht
        rcases List.mem_append.1 ht with h2 | h2
        · exact Or.inl h2
        · right
          rw [List.mem_singleton.1 h2]
      · intro t ht; exact Or.inl ht

theorem installTimer_timers (s : ServiceState) (b k : String) (p : Rat) :
    (installTimer s b k p).timers =
      s.timers ++ [{ id := s.nextTimer, botId := b, kind := k, periodMs := p }] :=
  rfl

theorem fireTimer_timers (s : ServiceState) (n : Nat) :
    (fireTimer s n).timers = s.timers := by
  cases hf : s.timers.find? (fun t2 => t2.id == n) with
  | none => simp only [fireTimer, hf]
  | some tmr =>
    simp only [fireTimer, hf]
    split_ifs
    · rfl
    · exact innerExec_timers s tmr.botId tmr.kind

theorem execCount_fireTimer_of_no_timer (s : ServiceState) (b k : String) (n : Nat)
    (hno : ∀ t2 ∈ s.timers, ¬(t2.botId = b ∧ t2.kind = k)) :
    execCount (fireTimer s n) b k = execCount s b k := by
  cases hf : s.timers.find? (fun t2 => t2.id == n) with
  | none => simp only [fireTimer, hf]
  | some tmr =>
    have htm : tmr ∈ s.timers := List.mem_of_find?_eq_some hf
    have hnt := hno tmr htm
    simp only [fireTimer, hf]
    split_ifs with hj
    · rfl
    · unfold execCount
      rw [innerExec_execLog, List.filter_append]
      have hfa : (((tmr.botId, tmr.kind) : String × String).1 == b &&
          ((tmr.botId, tmr.kind) : String × String).2 == k) = false := by
        by_cases h1 : tmr.botId = b
        · by_cases h2 : tmr.kind = k
          · exact absurd ⟨h1, h2⟩ hnt
          · simp [h1, h2]
        · simp [h1]
      simp [List.filter, hfa]

theorem execCount_fireMany_of_no_timer (b k : String) :
    ∀ (l : List Nat) (s : ServiceState),
      (∀ t2 ∈ s.timers, ¬(t2.botId = b ∧ t2.kind = k)) →
      execCount (fireMany s l) b k = execCount s b k := by
  intro l
  induction l with
  | nil => intro s hno; rfl
  | cons n rest ih =>
    intro s hno
    show execCount (fireMany (fireTimer s n) rest) b k = execCount s b k
    rw [ih (fireTimer s n) (fun t2 ht2 => hno t2 (by rwa [fireTimer_timers] at ht2))]
    exact execCount_fireTimer_of_no_timer s b k n hno

/-- C2: issuing a new schedule for an action kind on a running bot, in any
mode, first cancels and removes the previously registered timer for that
kind -- `handleAction` factors through the clearing prologue, the old
timer id lands in the cancelled set and no live timer carries it any
more -- before any new timer is installed, and the scheduler
well-formedness is preserved, so no two live timers for the same
(bot, kind) pair ever coexist. -/
theorem claim_C2 (s : ServiceState) (botId kind : String) (mode : Mode)
    (iv : Option Rat) (inst : BotInstance) (tid : Nat)
    (hinst : alookup s.bots botId = some inst)
    (htid : alookup inst.actionIntervals kind = some tid)
    (hinv : schedInv s) :
    handleActionS s botId kind mode iv =
      applyScheduleMode (clearExistingAction s botId kind) botId kind mode iv ∧
    tid ∈ (handleActionS s botId kind mode iv).cancelled ∧
    (∀ t ∈ (handleActionS s botId kind mode iv).timers, t.id ≠ tid) ∧
    schedInv (handleActionS s botId kind mode iv) ∧
    (∀ t1 ∈ (handleActionS s botId kind mode iv).timers,
      ∀ t2 ∈ (handleActionS s botId kind mode iv).timers,
        t1.botId = t2.botId → t1.kind = t2.kind → t1 = t2) := by
  have hreg : registeredId s botId kind = some tid := by
    simp [registeredId, hinst, htid]
  have htid_lt : tid < s.nextTimer :=
    hinv.2.2.2.1 (botId, inst) (alookup_mem _ _ _ hinst) (kind, tid)
      (alookup_mem _ _ _ htid)
  have hCinv : schedInv (clearExistingAction s botId kind) :=
    schedInv_clear s botId kind hinv
  have hCreg : registeredId (clearExistingAction s botId kind) botId kind = none :=
    registeredId_clear_self s botId kind hinv.2.2.2.2
  have hCpres : (alookup (clearExistingAction s botId kind).bots botId).isSome = true := by
    rw [clear_alookup_isSome, hinst]
    rfl
  have hInv2 : schedInv (handleActionS s botId kind mode iv) := by
    unfold handleActionS
    exact schedInv_applyMode _ botId kind mode iv hCpres hCreg hCinv
  refine ⟨rfl, ?_, ?_, hInv2, schedInv_atMostOne _ hInv2⟩
  · have hc : (handleActionS s botId kind mode iv).cancelled = s.cancelled ++ [tid] := by
      unfold handleActionS
      rw [applyMode_cancelled, clear_cancelled_some s botId kind tid hreg]
    rw [hc]
    exact List.mem_append_right _ (List.mem_singleton.2 rfl)
  · intro t ht hteq
    unfold handleActionS at ht
    rcases applyMode_timers _ botId kind mode iv t ht with h2 | h2
    · rw [clear_timers_some s botId kind tid hreg] at h2
      have hf := (List.mem_filter.1 h2).2
      rw [hteq] at hf
      simp at hf
    · rw [clear_nextTimer, hteq] at h2
      exact absurd htid_lt (not_lt.2 h2)

theorem claim_C2_witness :
    (0 : Nat) ∈ (handleActionS sampleS "A" "mine" Mode.stop none).cancelled :=
  (claim_C2 sampleS "A" "mine" Mode.stop none sampleInst 0 (by decide) (by decide)
    (by decide)).2.1

/-- C8: interval mode with a positive tick count t installs a live timer
for the kind at a period of (t/20)*1000 ms (so 20 ticks is 1000 ms, one
time-unit), cancelling and replacing any previously registered timer for
the kind; a subsequent stop for the same kind leaves no live timer for
that (bot, kind), and after the stop no sequence of timer firings ever
runs that bot's kind-specific behavior again. -/
theorem claim_C8 (s : ServiceState) (botId kind : String) (t : Rat)
    (inst : BotInstance)
    (hinst : alookup s.bots botId = some inst)
    (ht : 0 < t)
    (hinv : schedInv s) :
    ({ id := s.nextTimer, botId := botId, kind := kind,
       periodMs := t / 20 * 1000 } : Timer) ∈
      (handleActionS s botId kind Mode.interval (some t)).timers ∧
    (20 : Rat) / 20 * 1000 = 1000 ∧
    (∀ tid0, alookup inst.actionIntervals kind = some tid0 →
      tid0 ∈ (handleActionS s botId kind Mode.interval (some t)).cancelled ∧
      ∀ t2 ∈ (handleActionS s botId kind Mode.interval (some t)).timers,
        t2.id ≠ tid0) ∧
    (∀ t2 ∈ (handleActionS (handleActionS s botId kind Mode.interval (some t))
        botId kind Mode.stop none).timers, ¬(t2.botId = botId ∧ t2.kind = kind)) ∧
    (∀ l : List Nat,
      execCount (fireMany (handleActionS (handleActionS s botId kind
        Mode.interval (some t)) botId kind Mode.stop none) l) botId kind =
      execCount (handleActionS (handleActionS s botId kind Mode.interval (some t))
        botId kind Mode.stop none) botId kind) := by
  have hs1 : handleActionS s botId kind Mode.interval (some t) =
      installTimer (clearExistingAction s botId kind) botId kind (t / 20 * 1000) := by
    unfold handleActionS
    simp only [applyScheduleMode]
    rw [if_pos ht]
  have hct : (clearExistingAction s botId kind).nextTimer = s.nextTimer :=
    clear_nextTimer s botId kind
  have hCinv : schedInv (clearExistingAction s botId kind) :=
    schedInv_clear s botId kind hinv
  have hCreg : registeredId (clearExistingAction s botId kind) botId kind = none :=
    registeredId_clear_self s botId kind hinv.2.2.2.2
  have hCpres : (alookup (clearExistingAction s botId kind).bots botId).isSome = true := by
    rw [clear_alookup_isSome, hinst]
    rfl
  have hinv1 : schedInv (installTimer (clearExistingAction s botId kind) botId kind
      (t / 20 * 1000)) :=
    schedInv_installTimer _ botId kind _ hCpres hCreg hCinv
  have hinstC : alookup (clearExistingAction s botId kind).bots botId =
      some { inst with actionIntervals := aerase inst.actionIntervals kind
                       continuousActions := inst.continuousActions.filter
                         fun a => a != kind } := by
    rw [clear_bots, alookup_amodify_self, hinst]
    rfl
  have hreg1 : registeredId (installTimer (clearExistingAction s botId kind) botId kind
      (t / 20 * 1000)) botId kind = some (clearExistingAction s botId kind).nextTimer :=
    registeredId_installTimer_self_kind _ botId kind _ _ hinstC
  have hC : ∀ t2 ∈ (handleActionS (handleActionS s botId kind Mode.interval (some t))
      botId kind Mode.stop none).timers, ¬(t2.botId = botId ∧ t2.kind = kind) := by
    intro t2 ht2 hbk
    obtain ⟨hb2, hk2⟩ := hbk
    rw [hs1] at ht2
    have hstopT : (handleActionS (installTimer (clearExistingAction s botId kind)
        botId kind (t / 20 * 1000)) botId kind Mode.stop none).timers =
        (clearExistingAction (installTimer (clearExistingAction s botId kind)
          botId kind (t / 20 * 1000)) botId kind).timers := by
      unfold handleActionS
      exact applyMode_stop_timers _ botId kind
    rw [hstopT, clear_timers_some _ botId kind _ hreg1] at ht2
    rcases List.mem_filter.1 ht2 with ⟨hts1, hfil⟩
    have hr2 := hinv1.2.2.1 t2 hts1
    rw [hb2, hk2, hreg1] at hr2
    have hid : (clearExistingAction s botId kind).nextTimer = t2.id := by
      injection hr2
    rw [← hid] at hfil
    simp at hfil
  refine ⟨?_, by norm_num, ?_, hC, ?_⟩
  · rw [hs1, installTimer_timers, hct]
    exact List.mem_append_right _ (List.mem_singleton.2 rfl)
  · intro tid0 htid0
    have hreg : registeredId s botId kind = some tid0 := by
      simp [registeredId, hinst, htid0]
    have htid_lt : tid0 < s.nextTimer :=
      hinv.2.2.2.1 (botId, inst) (alookup_mem _ _ _ hinst) (kind, tid0)
        (alookup_mem _ _ _ htid0)
    constructor
    · have hc : (handleActionS s botId kind Mode.interval (some t)).cancelled =
          s.cancelled ++ [tid0] := by
        unfold handleActionS
        rw [applyMode_cancelled, clear_cancelled_some s botId kind tid0 hreg]
      rw [hc]
      exact List.mem_append_right _ (List.mem_singleton.2 rfl)
    · intro t2 ht2 hteq
      unfold handleActionS at ht2
      rcases applyMode_timers _ botId kind Mode.interval (some t) t2 ht2 with h2 | h2
      · rw [clear_timers_some s botId kind tid0 hreg] at h2
        have hf := (List.mem_filter.1 h2).2
        rw [hteq] at hf
        simp at hf
      · rw [clear_nextTimer, hteq] at h2
        exact absurd htid_lt (not_lt.2 h2)
  · intro l
    exact execCount_fireMany_of_no_timer botId kind l _ hC

theorem claim_C8_witness :
    ({ id := sampleS.nextTimer, botId := "A", kind := "mine",
       periodMs := 20 / 20 * 1000 } : Timer) ∈
      (handleActionS sampleS "A" "mine" Mode.interval (some 20)).timers :=
  (claim_C8 sampleS "A" "mine" 20 sampleInst (by decide) (by decide) (by decide)).1

end MineStay
